import Mathlib

/-!
Verification development for the IFRC-NDRRMC-convert repository.

The definitions below are a shallow embedding of the Python sources
`src/pcodes.py`, `src/transformations.py` and `src/dromic_extractor.py`.
Pandas columns of strings are modelled as `List (Option String)` (with
`none` for NaN/None), DataFrames as lists of row records, and the pandas
string operations used by the sources (`str.replace`, `str.casefold`,
`str.strip`, regex substitution for the concrete patterns that occur in
the source) are implemented character-by-character below, following
Python semantics on the ASCII-plus-Spanish-diacritic character repertoire
that Philippine administrative names use.
-/

namespace S2P

/-- Python whitespace for `str.strip` and the regex class `\s`
(ASCII part: space, tab, newline, carriage return, vertical tab, form feed). -/
def isPySpace (c : Char) : Bool :=
  c = ' ' || c = '\t' || c = '\n' || c = '\r' || c = '\x0b' || c = '\x0c'

/-- ASCII lower-casing of one character, extended to the Spanish
diacritics occurring in Philippine names; models Python `str.casefold`
on this repertoire (casefold = lowercase there). -/
def lowerChar (c : Char) : Char :=
  if 'A' ≤ c && c ≤ 'Z' then Char.ofNat (c.toNat + 32)
  else if c = 'Ñ' then 'ñ'
  else if c = 'Á' then 'á'
  else if c = 'É' then 'é'
  else if c = 'Í' then 'í'
  else if c = 'Ó' then 'ó'
  else if c = 'Ú' then 'ú'
  else if c = 'Ü' then 'ü'
  else c

/-- ASCII upper-casing of one character (models Python `str.upper` on the
repertoire used here). -/
def upperChar (c : Char) : Char :=
  if 'a' ≤ c && c ≤ 'z' then Char.ofNat (c.toNat - 32)
  else if c = 'ñ' then 'Ñ'
  else c

/-- `unidecode` on one character: identity on ASCII, diacritic folding on
the Spanish letters occurring in the gazetteer (e.g. "Peñablanca" →
"penablanca"). -/
def unidecodeChar (c : Char) : Char :=
  if c.toNat < 128 then c
  else if c = 'ñ' then 'n'
  else if c = 'á' then 'a'
  else if c = 'é' then 'e'
  else if c = 'í' then 'i'
  else if c = 'ó' then 'o'
  else if c = 'ú' then 'u'
  else if c = 'ü' then 'u'
  else if c = 'Ñ' then 'N'
  else c

/-- Does `pat` occur at the head of `s`? -/
def startsWith : List Char → List Char → Bool
  | [], _ => true
  | _ :: _, [] => false
  | p :: ps, c :: cs => p = c && startsWith ps cs

/-- Does `pat` occur anywhere in `s`? (Substring containment.) -/
def containsSub (pat : List Char) : List Char → Bool
  | [] => startsWith pat []
  | c :: cs => startsWith pat (c :: cs) || containsSub pat cs

/-- One fuel-indexed pass of Python `str.replace(pat, rep)` /
`re.sub` for a literal pattern: left-to-right, non-overlapping, the
remainder after a match is not rescanned from before the replacement.
Fuel `s.length` always suffices because every step consumes at least one
character of `s`. -/
def replLit (pat rep : List Char) : Nat → List Char → List Char
  | _, [] => []
  | 0, s => s
  | fuel + 1, c :: cs =>
    if pat ≠ [] && startsWith pat (c :: cs) then
      rep ++ replLit pat rep fuel ((c :: cs).drop pat.length)
    else
      c :: replLit pat rep fuel cs

/-- Python `s.replace(pat, rep)` (and `re.sub` for metacharacter-free
patterns): replace all non-overlapping occurrences, left to right. -/
def replaceAllLit (pat rep s : List Char) : List Char :=
  replLit pat rep s.length s

/-- Index of the last element of `l` satisfying `p`, if any. -/
def findLastIdx (p : Char → Bool) (l : List Char) : Option Nat :=
  match l with
  | [] => none
  | c :: cs =>
    match findLastIdx p cs with
    | some k => some (k + 1)
    | none => if p c then some 0 else none

/-- `re.sub(r"\(.*\)", "", s)`: at each `(` the greedy `.*` runs to the
last `)` on the same line (`.` does not match a newline); scanning
continues after the removed span. -/
def removeParen : Nat → List Char → List Char
  | _, [] => []
  | 0, s => s
  | fuel + 1, c :: cs =>
    if c = '(' then
      match findLastIdx (· = ')') (cs.takeWhile (· ≠ '\n')) with
      | some k => removeParen fuel (cs.drop (k + 1))
      | none => c :: removeParen fuel cs
    else
      c :: removeParen fuel cs

/-- `re.sub("brgy.", "", s)` where the unescaped `.` matches any one
character except a newline: removes `"brgy"` plus the following
character. -/
def brgyRemove : Nat → List Char → List Char
  | _, [] => []
  | 0, s => s
  | fuel + 1, c :: cs =>
    if startsWith ['b', 'r', 'g', 'y'] (c :: cs) then
      match (c :: cs).drop 4 with
      | d :: ds => if d ≠ '\n' then brgyRemove fuel ds
                   else c :: brgyRemove fuel cs
      | [] => c :: brgyRemove fuel cs
    else
      c :: brgyRemove fuel cs

/-- `re.sub(r"\s<numeral>($|\s)", " <digits>", s)`: a whitespace
character, the numeral token, then end of string or a further whitespace
character (consumed); the replacement carries the leading space.
Scanning continues after the whole match. -/
def romanSub (numeral rep : List Char) : Nat → List Char → List Char
  | _, [] => []
  | 0, s => s
  | fuel + 1, c :: cs =>
    if isPySpace c && startsWith numeral cs then
      match cs.drop numeral.length with
      | [] => rep
      | d :: ds =>
        if isPySpace d then rep ++ romanSub numeral rep fuel ds
        else c :: romanSub numeral rep fuel cs
    else
      c :: romanSub numeral rep fuel cs

/-- Python `str.strip()`: drop leading and trailing whitespace. -/
def pyStripL (s : List Char) : List Char :=
  ((s.dropWhile isPySpace).reverse.dropWhile isPySpace).reverse

/-- The thirteen Roman-numeral substitutions of `get_clean_names`, in
source order (i, ii, ..., xiii). -/
def romanTable : List (List Char × List Char) :=
  [ (['i'], [' ', '1']), (['i', 'i'], [' ', '2']), (['i', 'i', 'i'], [' ', '3']),
    (['i', 'v'], [' ', '4']), (['v'], [' ', '5']), (['v', 'i'], [' ', '6']),
    (['v', 'i', 'i'], [' ', '7']), (['v', 'i', 'i', 'i'], [' ', '8']),
    (['i', 'x'], [' ', '9']), (['x'], [' ', '1', '0']), (['x', 'i'], [' ', '1', '1']),
    (['x', 'i', 'i'], [' ', '1', '2']), (['x', 'i', 'i', 'i'], [' ', '1', '3']) ]

/-- `re.sub(r"\(.*\)", "", s)` with sufficient fuel. -/
def removeParenAll (s : List Char) : List Char :=
  removeParen s.length s

/-- `re.sub("brgy.", "", s)` with sufficient fuel. -/
def brgyRemoveAll (s : List Char) : List Char :=
  brgyRemove s.length s

/-- All thirteen Roman-numeral substitutions, in source order. -/
def romanAll (s : List Char) : List Char :=
  romanTable.foldl (fun acc nr => romanSub nr.1 nr.2 acc.length acc) s

/-- The whole cleaning pipeline of `get_clean_names` in `src/pcodes.py`
(lines 11-40), on one string, in source order (innermost application
first): casefold; remove `r"\(.*\)"`, `"city of"`, `"city"`, `"brgy."`
(regex, `.` a wildcard), `"barangay"`, `"region"`, `"province of"`,
`"municipality of"`, `"-"`, `r"\*"`, `","`; remove `"."` (literal);
`unidecode`; Roman numerals i-xiii to Arabic; `"st."` → `"san"` and
`"sta."` → `"santa"` (literal); strip. -/
def cleanPipeline (s : List Char) : List Char :=
  pyStripL
    (replaceAllLit ['s', 't', 'a', '.'] ['s', 'a', 'n', 't', 'a']
      (replaceAllLit ['s', 't', '.'] ['s', 'a', 'n']
        (romanAll
          (List.map unidecodeChar
            (replaceAllLit ['.'] []
              (replaceAllLit [','] []
                (replaceAllLit ['*'] []
                  (replaceAllLit ['-'] []
                    (replaceAllLit ['m', 'u', 'n', 'i', 'c', 'i', 'p', 'a', 'l', 'i', 't', 'y', ' ', 'o', 'f'] []
                      (replaceAllLit ['p', 'r', 'o', 'v', 'i', 'n', 'c', 'e', ' ', 'o', 'f'] []
                        (replaceAllLit ['r', 'e', 'g', 'i', 'o', 'n'] []
                          (replaceAllLit ['b', 'a', 'r', 'a', 'n', 'g', 'a', 'y'] []
                            (brgyRemoveAll
                              (replaceAllLit ['c', 'i', 't', 'y'] []
                                (replaceAllLit ['c', 'i', 't', 'y', ' ', 'o', 'f'] []
                                  (removeParenAll
                                    (List.map lowerChar s)))))))))))))))))

/-- `get_clean_names` of `src/pcodes.py` on a single cell (the pandas
version maps this over the column). -/
def get_clean_names (s : String) : String :=
  String.mk (cleanPipeline s.data)

/-- One character is left unchanged by both case folding and
transliteration. -/
def goodChar (c : Char) : Bool :=
  lowerChar c = c && unidecodeChar c = c

/-- Does the Roman-numeral pattern `\s<numeral>($|\s)` match anywhere? -/
def hasRoman (numeral : List Char) : List Char → Bool
  | [] => false
  | c :: cs =>
    (isPySpace c && startsWith numeral cs &&
      (match cs.drop numeral.length with
       | [] => true
       | d :: _ => isPySpace d)) || hasRoman numeral cs

/-- A string on which every stage of the cleaning pipeline acts
trivially: already case-folded ASCII, none of the removed tokens or
punctuation, no parenthesis, no internal Roman-numeral token, and no
surrounding whitespace. -/
def noTok (s : List Char) : Bool :=
  s.all goodChar &&
  s.all (· ≠ '(') &&
  !containsSub ['c', 'i', 't', 'y', ' ', 'o', 'f'] s &&
  !containsSub ['c', 'i', 't', 'y'] s &&
  !containsSub ['b', 'r', 'g', 'y'] s &&
  !containsSub ['b', 'a', 'r', 'a', 'n', 'g', 'a', 'y'] s &&
  !containsSub ['r', 'e', 'g', 'i', 'o', 'n'] s &&
  !containsSub ['p', 'r', 'o', 'v', 'i', 'n', 'c', 'e', ' ', 'o', 'f'] s &&
  !containsSub ['m', 'u', 'n', 'i', 'c', 'i', 'p', 'a', 'l', 'i', 't', 'y', ' ', 'o', 'f'] s &&
  s.all (· ≠ '-') && s.all (· ≠ '*') && s.all (· ≠ ',') && s.all (· ≠ '.') &&
  !containsSub ['s', 't', '.'] s &&
  !containsSub ['s', 't', 'a', '.'] s &&
  romanTable.all (fun nr => !hasRoman nr.1 s) &&
  (match s.head? with | none => true | some c => !isPySpace c) &&
  (match s.getLast? with | none => true | some c => !isPySpace c)

theorem replLit_no_occ (pat rep : List Char) :
    ∀ (fuel : Nat) (s : List Char), containsSub pat s = false → replLit pat rep fuel s = s := by
  intro fuel
  induction fuel with
  | zero => intro s _; cases s <;> rfl
  | succ n ih =>
    intro s h
    cases s with
    | nil => rfl
    | cons c cs =>
      simp only [containsSub, Bool.or_eq_false_iff] at h
      simp only [replLit, h.1, Bool.and_false, Bool.false_eq_true, if_neg, ih cs h.2,
        Bool.and_eq_true, ne_eq]
      simp [h.1]

theorem brgyRemove_no_occ :
    ∀ (fuel : Nat) (s : List Char),
      containsSub ['b', 'r', 'g', 'y'] s = false → brgyRemove fuel s = s := by
  intro fuel
  induction fuel with
  | zero => intro s _; cases s <;> rfl
  | succ n ih =>
    intro s h
    cases s with
    | nil => rfl
    | cons c cs =>
      simp only [containsSub, Bool.or_eq_false_iff] at h
      simp only [brgyRemove, h.1, Bool.false_eq_true, if_neg, ih cs h.2]
      simp

theorem removeParen_no_paren :
    ∀ (fuel : Nat) (s : List Char), s.all (· ≠ '(') = true → removeParen fuel s = s := by
  intro fuel
  induction fuel with
  | zero => intro s _; cases s <;> rfl
  | succ n ih =>
    intro s h
    cases s with
    | nil => rfl
    | cons c cs =>
      simp only [List.all_cons, Bool.and_eq_true, decide_eq_true_eq] at h
      simp only [removeParen, if_neg h.1, ih cs (by simp [List.all_eq_true] at h ⊢; exact h.2)]

theorem romanSub_no_occ (numeral rep : List Char) :
    ∀ (fuel : Nat) (s : List Char), hasRoman numeral s = false → romanSub numeral rep fuel s = s := by
  intro fuel
  induction fuel with
  | zero => intro s _; cases s <;> rfl
  | succ n ih =>
    intro s h
    cases s with
    | nil => rfl
    | cons c cs =>
      simp only [hasRoman, Bool.or_eq_false_iff, Bool.and_eq_false_iff] at h
      rw [romanSub]
      rcases h with ⟨h1, h2⟩
      rcases h1 with h1 | h1
      · rcases h1 with h1 | h1
        · simp [h1, ih cs h2]
        · simp [h1, ih cs h2]
      · by_cases hsp : isPySpace c
        · by_cases hsw : startsWith numeral cs
          · simp only [hsp, hsw, Bool.and_self, if_true]
            revert h1
            cases cs.drop numeral.length with
            | nil => intro h1; simp at h1
            | cons d ds =>
              intro h1
              simp only [Bool.not_eq_true] at h1
              simp [h1, ih cs h2]
          · simp [hsw, ih cs h2]
        · simp [hsp, ih cs h2]

theorem map_lower_id (s : List Char) (h : s.all goodChar = true) : s.map lowerChar = s := by
  induction s with
  | nil => rfl
  | cons c cs ih =>
    simp only [List.all_cons, Bool.and_eq_true, goodChar, decide_eq_true_eq] at h
    simp only [List.map_cons, h.1.1, ih h.2]

theorem map_unidecode_id (s : List Char) (h : s.all goodChar = true) : s.map unidecodeChar = s := by
  induction s with
  | nil => rfl
  | cons c cs ih =>
    simp only [List.all_cons, Bool.and_eq_true, goodChar, decide_eq_true_eq] at h
    simp only [List.map_cons, h.1.2, ih h.2]

theorem dropWhile_eq_self (p : Char → Bool) (s : List Char)
    (h : ∀ c, s.head? = some c → p c = false) : s.dropWhile p = s := by
  cases s with
  | nil => rfl
  | cons c cs =>
    have := h c rfl
    simp [List.dropWhile_cons, this]

theorem strip_id (s : List Char)
    (h1 : ∀ c, s.head? = some c → isPySpace c = false)
    (h2 : ∀ c, s.getLast? = some c → isPySpace c = false) : pyStripL s = s := by
  unfold pyStripL
  rw [dropWhile_eq_self _ _ h1]
  rw [dropWhile_eq_self _ _ (fun c hc => h2 c (by rwa [List.head?_reverse] at hc))]
  exact List.reverse_reverse s

theorem roman_fold_id (tbl : List (List Char × List Char)) (s : List Char)
    (h : ∀ nr ∈ tbl, hasRoman nr.1 s = false) :
    tbl.foldl (fun acc nr => romanSub nr.1 nr.2 acc.length acc) s = s := by
  induction tbl with
  | nil => rfl
  | cons nr rest ih =>
    simp only [List.foldl_cons]
    rw [romanSub_no_occ nr.1 nr.2 s.length s (h nr (List.mem_cons_self nr rest))]
    exact ih (fun x hx => h x (List.mem_cons_of_mem nr hx))

theorem replaceAllLit_no_occ (pat rep s : List Char) (h : containsSub pat s = false) :
    replaceAllLit pat rep s = s :=
  replLit_no_occ pat rep s.length s h

theorem no_char_no_occ (a : Char) (s : List Char) (ha : ∀ x ∈ s, x ≠ a) :
    containsSub [a] s = false := by
  induction s with
  | nil => rfl
  | cons c cs ih =>
    simp only [containsSub, startsWith, Bool.or_eq_false_iff]
    refine ⟨?_, ih (fun x hx => ha x (List.mem_cons_of_mem c hx))⟩
    have hne := ha c (List.mem_cons_self c cs)
    simp only [startsWith, Bool.and_true, decide_eq_false_iff_not]
    exact fun hh => hne hh.symm

theorem cleanPipeline_id (s : List Char) (h : noTok s = true) : cleanPipeline s = s := by
  unfold noTok at h
  simp only [Bool.and_eq_true, Bool.not_eq_true', List.all_eq_true, decide_eq_true_eq] at h
  obtain ⟨⟨⟨⟨⟨⟨⟨⟨⟨⟨⟨⟨⟨⟨⟨⟨⟨hgood, hpar⟩, hcof⟩, hcity⟩, hbrgy⟩, hbar⟩, hreg⟩, hprov⟩,
    hmun⟩, hdash⟩, hstar⟩, hcomma⟩, hdot⟩, hst⟩, hsta⟩, hrom⟩, hhd⟩, hlast⟩ := h
  have hgood' : s.all goodChar = true := by
    simp only [List.all_eq_true]
    exact hgood
  unfold cleanPipeline
  rw [map_lower_id s hgood']
  rw [show removeParenAll s = s from
    removeParen_no_paren s.length s (by simp only [List.all_eq_true, decide_eq_true_eq]; exact hpar)]
  rw [replaceAllLit_no_occ _ _ _ hcof, replaceAllLit_no_occ _ _ _ hcity]
  rw [show brgyRemoveAll s = s from brgyRemove_no_occ s.length s hbrgy]
  rw [replaceAllLit_no_occ _ _ _ hbar, replaceAllLit_no_occ _ _ _ hreg]
  rw [replaceAllLit_no_occ _ _ _ hprov, replaceAllLit_no_occ _ _ _ hmun]
  rw [replaceAllLit_no_occ _ _ _ (no_char_no_occ '-' s hdash),
    replaceAllLit_no_occ _ _ _ (no_char_no_occ '*' s hstar)]
  rw [replaceAllLit_no_occ _ _ _ (no_char_no_occ ',' s hcomma),
    replaceAllLit_no_occ _ _ _ (no_char_no_occ '.' s hdot)]
  rw [map_unidecode_id s hgood']
  rw [show romanAll s = s from roman_fold_id romanTable s (by
    intro nr hnr
    have := hrom nr hnr
    simpa using this)]
  rw [replaceAllLit_no_occ _ _ _ hst, replaceAllLit_no_occ _ _ _ hsta]
  apply strip_id
  · intro c hc
    revert hhd
    simp [hc]
  · intro c hc
    revert hlast
    simp [hc]

set_option maxHeartbeats 2000000 in
/-- C6 counterexample: `get_clean_names` is not idempotent. Deleting the
token `"city"` from `"cicityty"` splices the surrounding characters into
a fresh `"city"`, which only a second pass removes. -/
theorem c6_counterexample :
    get_clean_names (get_clean_names "cicityty") ≠ get_clean_names "cicityty" := by
  decide

/-- C6 (amended): the Name Normalizer is idempotent on every input whose
normalized form is free of the removed tokens and punctuation, of
parentheses, of internal Roman-numeral tokens, and of surrounding
whitespace (`noTok`); a single token-removal pass can otherwise create a
new removable token, so full idempotence fails (see the
counterexample). -/
theorem c6_amended (x : String) (h : noTok (get_clean_names x).data = true) :
    get_clean_names (get_clean_names x) = get_clean_names x := by
  have hs : cleanPipeline ((get_clean_names x).data) = (get_clean_names x).data :=
    cleanPipeline_id _ h
  show String.mk (cleanPipeline (get_clean_names x).data) = get_clean_names x
  rw [hs]

theorem c6_witness :
    noTok (get_clean_names "cavite").data = true ∧
      get_clean_names (get_clean_names "cavite") = get_clean_names "cavite" :=
  ⟨by decide, c6_amended "cavite" (by decide)⟩

/-- C7: the claim is right about the intended behavior, but in
`src/pcodes.py` the replacement of `"st."`/`"sta."` is dead code: line 21
removes every `"."` before lines 36-37 run, so the abbreviated form
`"Sta. Cruz"` keeps key `"sta cruz"` while `"Santa Cruz"` gets
`"santa cruz"` — the two do not normalize to the same key. -/
theorem c7_divergence :
    get_clean_names "Sta. Cruz" = "sta cruz" ∧
      get_clean_names "Santa Cruz" = "santa cruz" ∧
      get_clean_names "Sta. Cruz" ≠ get_clean_names "Santa Cruz" := by
  refine ⟨by decide, by decide, by decide⟩

/-!
## Code Resolver (`src/pcodes.py`, `add_pcodes`)

The reference gazetteer `phl_adminareas_fixed.csv` is one row per
administrative chain with code, English-name and precomputed
normalized-name (`*_clean`) columns per level; it is a parameter of every
definition.  `thefuzz.process.extractOne` is modelled with the similarity
scorer abstracted as a function `Scorer` (the Python call site also takes
the scorer as a parameter; concrete instances below agree with the
default scorer at the inputs where they are evaluated: equal strings
score 100, the dissimilar pairs used below score 0).
-/

/-- One row of the `phl_adminareas_fixed.csv` gazetteer. -/
structure PcodeRow where
  ADM1_EN : String
  ADM1_new : String
  adm1_clean : Option String
  ADM2_EN : String
  ADM2_new : String
  adm2_clean : Option String
  ADM3_EN : String
  ADM3_new : String
  adm3_clean : Option String
  ADM4_EN : String
  ADM4_new : String
  adm4_clean : Option String
deriving DecidableEq

/-- A similarity scorer, `scorer(query, choice)` on a 0..100 scale. -/
def Scorer : Type := String → String → Nat

def dedupFirstGo (seen : List String) : List String → List String
  | [] => []
  | x :: xs => if x ∈ seen then dedupFirstGo seen xs else x :: dedupFirstGo (x :: seen) xs

/-- pandas `Series.unique().tolist()`: first occurrences, in order. -/
def dedupFirst (l : List String) : List String :=
  dedupFirstGo [] l

theorem mem_of_mem_dedupFirstGo (x : String) :
    ∀ (l seen : List String), x ∈ dedupFirstGo seen l → x ∈ l := by
  intro l
  induction l with
  | nil => intro seen h; exact absurd h (List.not_mem_nil x)
  | cons y ys ih =>
    intro seen h
    by_cases hy : y ∈ seen
    · simp only [dedupFirstGo, if_pos hy] at h
      exact List.mem_cons_of_mem y (ih seen h)
    · simp only [dedupFirstGo, if_neg hy, List.mem_cons] at h
      rcases h with h | h
      · exact h ▸ List.mem_cons_self y ys
      · exact List.mem_cons_of_mem y (ih (y :: seen) h)

theorem mem_of_mem_dedupFirst (x : String) (l : List String) (h : x ∈ dedupFirst l) : x ∈ l :=
  mem_of_mem_dedupFirstGo x l [] h

/-- The running best of `thefuzz`'s scan: strictly better replaces, so
the first of equal-scoring candidates wins, matching Python
`max(..., key=...)` over the generator. -/
def bestGo (sc : Scorer) (q : String) : (String × Nat) → List String → String × Nat
  | acc, [] => acc
  | acc, c :: cs => bestGo sc q (if sc q c > acc.2 then (c, sc q c) else acc) cs

/-- `thefuzz.process.extractOne(query, choices, score_cutoff)`: the
best-scoring choice if its score is at least the cutoff, else `None`. -/
def extractOne (sc : Scorer) (q : String) (choices : List String) (cutoff : Nat) :
    Option (String × Nat) :=
  match choices with
  | [] => none
  | c :: cs =>
    let b := bestGo sc q (c, sc q c) cs
    if cutoff ≤ b.2 then some b else none

theorem bestGo_cases (sc : Scorer) (q : String) :
    ∀ (l : List String) (acc : String × Nat),
      bestGo sc q acc l = acc ∨ ∃ c ∈ l, bestGo sc q acc l = (c, sc q c) := by
  intro l
  induction l with
  | nil => intro acc; exact Or.inl rfl
  | cons c cs ih =>
    intro acc
    simp only [bestGo]
    rcases ih (if sc q c > acc.2 then (c, sc q c) else acc) with h | ⟨d, hd, hh⟩
    · rw [h]
      by_cases hc : sc q c > acc.2
      · exact Or.inr ⟨c, List.mem_cons_self c cs, by rw [if_pos hc]⟩
      · exact Or.inl (by rw [if_neg hc])
    · exact Or.inr ⟨d, List.mem_cons_of_mem c hd, hh⟩

theorem bestGo_ge_init (sc : Scorer) (q : String) :
    ∀ (l : List String) (acc : String × Nat), acc.2 ≤ (bestGo sc q acc l).2 := by
  intro l
  induction l with
  | nil => intro acc; exact Nat.le_refl _
  | cons c cs ih =>
    intro acc
    simp only [bestGo]
    refine Nat.le_trans ?_ (ih (if sc q c > acc.2 then (c, sc q c) else acc))
    by_cases hc : sc q c > acc.2
    · rw [if_pos hc]; exact Nat.le_of_lt hc
    · rw [if_neg hc]

theorem bestGo_ge_mem (sc : Scorer) (q : String) :
    ∀ (l : List String) (acc : String × Nat) (c : String), c ∈ l →
      sc q c ≤ (bestGo sc q acc l).2 := by
  intro l
  induction l with
  | nil => intro acc c hc; exact absurd hc (List.not_mem_nil c)
  | cons d ds ih =>
    intro acc c hc
    simp only [bestGo]
    rcases List.mem_cons.mp hc with h | h
    · subst h
      refine Nat.le_trans ?_ (bestGo_ge_init sc q ds _)
      by_cases hd : sc q c > acc.2
      · rw [if_pos hd]
      · rw [if_neg hd]; exact Nat.le_of_not_lt hd
    · exact ih _ c h

theorem extractOne_mem (sc : Scorer) (q : String) (choices : List String) (cutoff : Nat)
    (m : String) (s2 : Nat) (h : extractOne sc q choices cutoff = some (m, s2)) :
    m ∈ choices := by
  cases choices with
  | nil => exact absurd h (by simp [extractOne])
  | cons c cs =>
    simp only [extractOne] at h
    by_cases hc : cutoff ≤ (bestGo sc q (c, sc q c) cs).2
    · rw [if_pos hc] at h
      rcases bestGo_cases sc q cs (c, sc q c) with hb | ⟨d, hd, hb⟩
      · rw [hb] at h
        exact (Prod.mk.injEq .. ▸ Option.some.inj h).1 ▸ List.mem_cons_self c cs
      · rw [hb] at h
        exact (Prod.mk.injEq .. ▸ Option.some.inj h).1 ▸ List.mem_cons_of_mem c hd
    · rw [if_neg hc] at h
      exact absurd h (by simp)

theorem extractOne_none_of_below (sc : Scorer) (q : String) (choices : List String)
    (cutoff : Nat) (h : ∀ c ∈ choices, sc q c < cutoff) :
    extractOne sc q choices cutoff = none := by
  cases choices with
  | nil => rfl
  | cons c cs =>
    simp only [extractOne]
    have hb : (bestGo sc q (c, sc q c) cs).2 < cutoff := by
      rcases bestGo_cases sc q cs (c, sc q c) with hh | ⟨d, hd, hh⟩
      · rw [hh]; exact h c (List.mem_cons_self c cs)
      · rw [hh]; exact h d (List.mem_cons_of_mem c hd)
    rw [if_neg (Nat.not_le_of_lt hb)]

theorem extractOne_some_of_hit (sc : Scorer) (q : String) (choices : List String)
    (cutoff : Nat) (c : String) (hc : c ∈ choices) (hs : cutoff ≤ sc q c) :
    ∃ m s2, extractOne sc q choices cutoff = some (m, s2) := by
  cases choices with
  | nil => exact absurd hc (List.not_mem_nil c)
  | cons d ds =>
    simp only [extractOne]
    have hb : cutoff ≤ (bestGo sc q (d, sc q d) ds).2 := by
      rcases List.mem_cons.mp hc with h | h
      · exact Nat.le_trans hs (h ▸ bestGo_ge_init sc q ds (d, sc q d))
      · exact Nat.le_trans hs (bestGo_ge_mem sc q ds (d, sc q d) c h)
    rw [if_pos hb]
    exact ⟨_, _, rfl⟩

/-- `pcode_df['adm1_clean'].dropna().unique().tolist()` (line 77). -/
def regionList (gaz : List PcodeRow) : List String :=
  dedupFirst (gaz.filterMap (·.adm1_clean))

/-- `pcode_df['adm2_clean'].dropna().unique().tolist()` (line 93) — note:
the whole gazetteer, not scoped to any region. -/
def provinceList (gaz : List PcodeRow) : List String :=
  dedupFirst (gaz.filterMap (·.adm2_clean))

/-- Municipality candidates (line 125): scoped to the rows whose
`ADM2_new` equals the resolved province code. -/
def munList (gaz : List PcodeRow) (p : String) : List String :=
  dedupFirst ((gaz.filter (fun e => decide (e.ADM2_new = p))).filterMap (·.adm3_clean))

/-- Barangay candidates (line 148): scoped to the rows whose `ADM3_new`
equals the resolved municipality code. -/
def brgyList (gaz : List PcodeRow) (p : String) : List String :=
  dedupFirst ((gaz.filter (fun e => decide (e.ADM3_new = p))).filterMap (·.adm4_clean))

/-- `pcode_df[pcode_df['adm1_clean'] == matched_name].iloc[0]` and the
two column reads of line 86; the `.error` branch models the `IndexError`
Python would raise if the filtered frame were empty. -/
def regionLookup (gaz : List PcodeRow) (m : String) :
    Except String (Option String × Option String) :=
  match gaz.find? (fun e => decide (e.adm1_clean = some m)) with
  | some e => .ok (some e.ADM1_EN, some e.ADM1_new)
  | none => .error "IndexError"

/-- Lines 102-108 of `match_province`: row lookup and its four column
reads. -/
def provLookup (gaz : List PcodeRow) (m : String) :
    Except String (Option String × Option String × Option String × Option String) :=
  match gaz.find? (fun e => decide (e.adm2_clean = some m)) with
  | some e => .ok (some e.ADM2_EN, some e.ADM2_new, some e.ADM1_EN, some e.ADM1_new)
  | none => .error "IndexError"

/-- Lines 133-137 of `match_municipality`: the parent-scoped row lookup,
with the explicit `if not pcode_row.empty` guard (no exception here). -/
def munLookup (gaz : List PcodeRow) (p m : String) : Option String × Option String :=
  match gaz.find? (fun e => decide (e.ADM2_new = p ∧ e.adm3_clean = some m)) with
  | some e => (some e.ADM3_EN, some e.ADM3_new)
  | none => (none, none)

/-- Lines 156-160 of `match_barangay`. -/
def brgyLookup (gaz : List PcodeRow) (p m : String) : Option String × Option String :=
  match gaz.find? (fun e => decide (e.ADM3_new = p ∧ e.adm4_clean = some m)) with
  | some e => (some e.ADM4_EN, some e.ADM4_new)
  | none => (none, none)

/-- `match_region` (lines 79-87). -/
def match_region (gaz : List PcodeRow) (sc : Scorer) (cleanName : String) :
    Except String (Option String × Option String) :=
  if cleanName = "" then .ok (none, none)
  else
    match extractOne sc cleanName (regionList gaz) 80 with
    | none => .ok (none, none)
    | some (matchedName, _) => regionLookup gaz matchedName

/-- `match_province` (lines 95-109): returns
`(ADM2_EN, ADM2_new, ADM1_EN, ADM1_new)` of the matched row; candidates
are the global `provinceList`. -/
def match_province (gaz : List PcodeRow) (sc : Scorer) (cleanName : String) :
    Except String (Option String × Option String × Option String × Option String) :=
  if cleanName = "" then .ok (none, none, none, none)
  else
    match extractOne sc cleanName (provinceList gaz) 80 with
    | none => .ok (none, none, none, none)
    | some (matchedName, _) => provLookup gaz matchedName

/-- `match_municipality` (lines 120-137): guarded on a resolved province
code, candidates scoped to it; every fall-through returns `(None, None)`. -/
def match_municipality (gaz : List PcodeRow) (sc : Scorer) (munClean : String)
    (a2pc : Option String) : Option String × Option String :=
  if munClean = "" then (none, none)
  else
    match a2pc with
    | none => (none, none)
    | some p =>
      if munList gaz p = [] then (none, none)
      else
        match extractOne sc munClean (munList gaz p) 80 with
        | none => (none, none)
        | some (matchedName, _) => munLookup gaz p matchedName

/-- `match_barangay` (lines 143-160). -/
def match_barangay (gaz : List PcodeRow) (sc : Scorer) (brgyClean : String)
    (a3pc : Option String) : Option String × Option String :=
  if brgyClean = "" then (none, none)
  else
    match a3pc with
    | none => (none, none)
    | some p =>
      if brgyList gaz p = [] then (none, none)
      else
        match extractOne sc brgyClean (brgyList gaz p) 80 with
        | none => (none, none)
        | some (matchedName, _) => brgyLookup gaz p matchedName

/-- One input row of the frame `add_pcodes` receives (`none` = NaN). -/
structure InRow where
  Region : Option String
  Province : Option String
  Municipality : Option String
  Barangay : Option String
deriving DecidableEq

/-- One output row of `add_pcodes`. -/
structure ResRow where
  ADM0_EN : String
  ADM0_PCODE : String
  ADM1_EN : Option String
  ADM1_PCODE : Option String
  ADM2_EN : Option String
  ADM2_PCODE : Option String
  ADM3_EN : Option String
  ADM3_PCODE : Option String
  ADM4_EN : Option String
  ADM4_PCODE : Option String
deriving DecidableEq

/-- `Series.fillna('')` on one cell (lines 63-74). -/
def fillnaStr (o : Option String) : String :=
  o.getD ""

/-- The per-row computation of `add_pcodes` (lines 52-162): `hp`, `hm`,
`hb` are the frame-level flags `has_province` / `has_municipality` /
`has_barangay`; match levels in source order, backfill ADM1 from the
province match (lines 113-115), scope municipality to `ADM2_PCODE` and
barangay to `ADM3_PCODE`. -/
def resolveRow (gaz : List PcodeRow) (sc : Scorer) (hp hm hb : Bool) (r : InRow) :
    Except String ResRow :=
  match match_region gaz sc (get_clean_names (fillnaStr r.Region)) with
  | .error e => .error e
  | .ok (a1en, a1pc) =>
    match (if hp then match_province gaz sc (get_clean_names (fillnaStr r.Province))
           else .ok (none, none, none, none)) with
    | .error e => .error e
    | .ok (a2en, a2pc, c1en, c1pc) =>
      let b1en := if hp then a1en <|> c1en else a1en
      let b1pc := if hp then a1pc <|> c1pc else a1pc
      let m3 := if hm && hp then
          match_municipality gaz sc (get_clean_names (fillnaStr r.Municipality)) a2pc
        else (none, none)
      let m4 := if hb && hm then
          match_barangay gaz sc (get_clean_names (fillnaStr r.Barangay)) m3.2
        else (none, none)
      .ok { ADM0_EN := "Philippines", ADM0_PCODE := "PH",
            ADM1_EN := b1en, ADM1_PCODE := b1pc,
            ADM2_EN := a2en, ADM2_PCODE := a2pc,
            ADM3_EN := m3.1, ADM3_PCODE := m3.2,
            ADM4_EN := m4.1, ADM4_PCODE := m4.2 }

/-- `add_pcodes` over the frame: the `has_*` flags are computed from the
columns, every row is resolved; a row-level exception aborts the whole
call (pandas `apply`). -/
def add_pcodes (gaz : List PcodeRow) (sc : Scorer) (rows : List InRow) :
    Except String (List ResRow) :=
  rows.mapM (resolveRow gaz sc
    (rows.any (·.Province.isSome)) (rows.any (·.Municipality.isSome))
    (rows.any (·.Barangay.isSome)))

theorem regionLookup_ok (gaz : List PcodeRow) (m : String)
    (hex : ∃ e, e ∈ gaz ∧ e.adm1_clean = some m) :
    ∃ pr, regionLookup gaz m = .ok pr := by
  obtain ⟨e0, he0, hc0⟩ := hex
  unfold regionLookup
  cases hf : gaz.find? (fun e => decide (e.adm1_clean = some m)) with
  | none =>
    rw [List.find?_eq_none] at hf
    exact absurd (by simpa using hc0) (by simpa using hf e0 he0)
  | some e => exact ⟨_, rfl⟩

theorem provLookup_ok (gaz : List PcodeRow) (m : String)
    (hex : ∃ e, e ∈ gaz ∧ e.adm2_clean = some m) :
    ∃ pr, provLookup gaz m = .ok pr := by
  obtain ⟨e0, he0, hc0⟩ := hex
  unfold provLookup
  cases hf : gaz.find? (fun e => decide (e.adm2_clean = some m)) with
  | none =>
    rw [List.find?_eq_none] at hf
    exact absurd (by simpa using hc0) (by simpa using hf e0 he0)
  | some e => exact ⟨_, rfl⟩

theorem match_region_ok (gaz : List PcodeRow) (sc : Scorer) (q : String) :
    ∃ pr, match_region gaz sc q = .ok pr := by
  unfold match_region
  by_cases hq : q = ""
  · rw [if_pos hq]; exact ⟨_, rfl⟩
  · rw [if_neg hq]
    cases hx : extractOne sc q (regionList gaz) 80 with
    | none => exact ⟨_, rfl⟩
    | some pr =>
      obtain ⟨m, s2⟩ := pr
      have hmem : m ∈ regionList gaz := extractOne_mem sc q _ 80 m s2 hx
      show ∃ pr, regionLookup gaz m = .ok pr
      apply regionLookup_ok
      have := mem_of_mem_dedupFirst m _ hmem
      simpa [List.mem_filterMap] using this

theorem match_province_ok (gaz : List PcodeRow) (sc : Scorer) (q : String) :
    ∃ pr, match_province gaz sc q = .ok pr := by
  unfold match_province
  by_cases hq : q = ""
  · rw [if_pos hq]; exact ⟨_, rfl⟩
  · rw [if_neg hq]
    cases hx : extractOne sc q (provinceList gaz) 80 with
    | none => exact ⟨_, rfl⟩
    | some pr =>
      obtain ⟨m, s2⟩ := pr
      have hmem : m ∈ provinceList gaz := extractOne_mem sc q _ 80 m s2 hx
      show ∃ pr, provLookup gaz m = .ok pr
      apply provLookup_ok
      have := mem_of_mem_dedupFirst m _ hmem
      simpa [List.mem_filterMap] using this

theorem resolveRow_ok (gaz : List PcodeRow) (sc : Scorer) (hp hm hb : Bool) (r : InRow) :
    ∃ res, resolveRow gaz sc hp hm hb r = .ok res := by
  unfold resolveRow
  obtain ⟨pr1, h1⟩ := match_region_ok gaz sc (get_clean_names (fillnaStr r.Region))
  rw [h1]
  obtain ⟨a1en, a1pc⟩ := pr1
  cases hp with
  | false => exact ⟨_, rfl⟩
  | true =>
    obtain ⟨pr2, h2⟩ := match_province_ok gaz sc (get_clean_names (fillnaStr r.Province))
    rw [if_pos rfl, h2]
    obtain ⟨a2en, a2pc, c1en, c1pc⟩ := pr2
    exact ⟨_, rfl⟩

theorem resolveRow_fields (gaz : List PcodeRow) (sc : Scorer) (hp hm hb : Bool) (r : InRow)
    (res : ResRow) (hres : resolveRow gaz sc hp hm hb r = .ok res) :
    (res.ADM3_EN, res.ADM3_PCODE) =
      (if hm && hp then
        match_municipality gaz sc (get_clean_names (fillnaStr r.Municipality)) res.ADM2_PCODE
       else (none, none)) ∧
    (res.ADM4_EN, res.ADM4_PCODE) =
      (if hb && hm then
        match_barangay gaz sc (get_clean_names (fillnaStr r.Barangay)) res.ADM3_PCODE
       else (none, none)) := by
  unfold resolveRow at hres
  cases hR : match_region gaz sc (get_clean_names (fillnaStr r.Region)) with
  | error e => rw [hR] at hres; exact absurd hres (by simp)
  | ok pr1 =>
    rw [hR] at hres
    obtain ⟨a1en, a1pc⟩ := pr1
    cases hP : (if hp then match_province gaz sc (get_clean_names (fillnaStr r.Province))
        else .ok (none, none, none, none)) with
    | error e => rw [hP] at hres; exact absurd hres (by simp)
    | ok pr2 =>
      rw [hP] at hres
      obtain ⟨a2en, a2pc, c1en, c1pc⟩ := pr2
      simp only [Except.ok.injEq] at hres
      subst hres
      exact ⟨rfl, rfl⟩

theorem munLookup_scope (gaz : List PcodeRow) (p m c : String)
    (h : (munLookup gaz p m).2 = some c) :
    ∃ e, e ∈ gaz ∧ e.ADM3_new = c ∧ e.ADM2_new = p := by
  unfold munLookup at h
  cases hf : gaz.find? (fun e => decide (e.ADM2_new = p ∧ e.adm3_clean = some m)) with
  | none => rw [hf] at h; exact absurd h (by simp)
  | some e =>
    rw [hf] at h
    have hc : e.ADM3_new = c := by simpa using h
    have hmem := List.mem_of_find?_eq_some hf
    have hpred := List.find?_some hf
    simp only [decide_eq_true_eq] at hpred
    exact ⟨e, hmem, hc, hpred.1⟩

theorem brgyLookup_scope (gaz : List PcodeRow) (p m c : String)
    (h : (brgyLookup gaz p m).2 = some c) :
    ∃ e, e ∈ gaz ∧ e.ADM4_new = c ∧ e.ADM3_new = p := by
  unfold brgyLookup at h
  cases hf : gaz.find? (fun e => decide (e.ADM3_new = p ∧ e.adm4_clean = some m)) with
  | none => rw [hf] at h; exact absurd h (by simp)
  | some e =>
    rw [hf] at h
    have hc : e.ADM4_new = c := by simpa using h
    have hmem := List.mem_of_find?_eq_some hf
    have hpred := List.find?_some hf
    simp only [decide_eq_true_eq] at hpred
    exact ⟨e, hmem, hc, hpred.1⟩

theorem match_municipality_scope (gaz : List PcodeRow) (sc : Scorer) (q : String)
    (a2pc : Option String) (c : String)
    (h : (match_municipality gaz sc q a2pc).2 = some c) :
    ∃ e, e ∈ gaz ∧ e.ADM3_new = c ∧ some e.ADM2_new = a2pc := by
  unfold match_municipality at h
  by_cases hq : q = ""
  · rw [if_pos hq] at h; exact absurd h (by simp)
  · rw [if_neg hq] at h
    cases a2pc with
    | none => exact absurd h (by simp)
    | some p =>
      have h1 : (if munList gaz p = [] then ((none, none) : Option String × Option String)
          else match extractOne sc q (munList gaz p) 80 with
            | none => (none, none)
            | some (matchedName, _) => munLookup gaz p matchedName).2 = some c := h
      by_cases hl : munList gaz p = []
      · rw [if_pos hl] at h1; exact absurd h1 (by simp)
      · rw [if_neg hl] at h1
        cases hx : extractOne sc q (munList gaz p) 80 with
        | none => rw [hx] at h1; exact absurd h1 (by simp)
        | some pr =>
          obtain ⟨mname, s2⟩ := pr
          rw [hx] at h1
          have h2 : (munLookup gaz p mname).2 = some c := h1
          obtain ⟨e, hmem, hc, hp2⟩ := munLookup_scope gaz p mname c h2
          exact ⟨e, hmem, hc, by rw [hp2]⟩

theorem match_barangay_scope (gaz : List PcodeRow) (sc : Scorer) (q : String)
    (a3pc : Option String) (c : String)
    (h : (match_barangay gaz sc q a3pc).2 = some c) :
    ∃ e, e ∈ gaz ∧ e.ADM4_new = c ∧ some e.ADM3_new = a3pc := by
  unfold match_barangay at h
  by_cases hq : q = ""
  · rw [if_pos hq] at h; exact absurd h (by simp)
  · rw [if_neg hq] at h
    cases a3pc with
    | none => exact absurd h (by simp)
    | some p =>
      have h1 : (if brgyList gaz p = [] then ((none, none) : Option String × Option String)
          else match extractOne sc q (brgyList gaz p) 80 with
            | none => (none, none)
            | some (matchedName, _) => brgyLookup gaz p matchedName).2 = some c := h
      by_cases hl : brgyList gaz p = []
      · rw [if_pos hl] at h1; exact absurd h1 (by simp)
      · rw [if_neg hl] at h1
        cases hx : extractOne sc q (brgyList gaz p) 80 with
        | none => rw [hx] at h1; exact absurd h1 (by simp)
        | some pr =>
          obtain ⟨mname, s2⟩ := pr
          rw [hx] at h1
          have h2 : (brgyLookup gaz p mname).2 = some c := h1
          obtain ⟨e, hmem, hc, hp2⟩ := brgyLookup_scope gaz p mname c h2
          exact ⟨e, hmem, hc, by rw [hp2]⟩

theorem match_municipality_none (gaz : List PcodeRow) (sc : Scorer) (q : String) :
    match_municipality gaz sc q none = (none, none) := by
  unfold match_municipality
  split <;> rfl

theorem match_barangay_none (gaz : List PcodeRow) (sc : Scorer) (q : String) :
    match_barangay gaz sc q none = (none, none) := by
  unfold match_barangay
  split <;> rfl

/-- C1 (amended): Municipality candidates really are scoped to the
resolved Province code and Barangay candidates to the resolved
Municipality code — every candidate name, and every resolved code, comes
from a gazetteer row whose parent code equals the code resolved at the
level above.  (Province candidates, by contrast, are drawn from the whole
gazetteer regardless of the resolved Region; see the counterexample.) -/
theorem c1_amended (gaz : List PcodeRow) (sc : Scorer) (hp hm hb : Bool) (r : InRow)
    (res : ResRow) (hres : resolveRow gaz sc hp hm hb r = .ok res) :
    (∀ p n, n ∈ munList gaz p → ∃ e, e ∈ gaz ∧ e.ADM2_new = p ∧ e.adm3_clean = some n) ∧
    (∀ c, res.ADM3_PCODE = some c →
      ∃ e, e ∈ gaz ∧ e.ADM3_new = c ∧ some e.ADM2_new = res.ADM2_PCODE) ∧
    (∀ c, res.ADM4_PCODE = some c →
      ∃ e, e ∈ gaz ∧ e.ADM4_new = c ∧ some e.ADM3_new = res.ADM3_PCODE) := by
  obtain ⟨h3, h4⟩ := resolveRow_fields gaz sc hp hm hb r res hres
  refine ⟨?_, ?_, ?_⟩
  · intro p n hn
    have := mem_of_mem_dedupFirst n _ hn
    simp only [List.mem_filterMap, List.mem_filter, decide_eq_true_eq] at this
    obtain ⟨e, ⟨he, hp2⟩, hc⟩ := this
    exact ⟨e, he, hp2, hc⟩
  · intro c hc
    by_cases hcond : (hm && hp) = true
    · rw [if_pos hcond] at h3
      apply match_municipality_scope gaz sc _ res.ADM2_PCODE c
      rw [← congrArg Prod.snd h3]
      exact hc
    · rw [if_neg hcond] at h3
      have : res.ADM3_PCODE = none := congrArg Prod.snd h3
      rw [this] at hc
      exact absurd hc (by simp)
  · intro c hc
    by_cases hcond : (hb && hm) = true
    · rw [if_pos hcond] at h4
      apply match_barangay_scope gaz sc _ res.ADM3_PCODE c
      rw [← congrArg Prod.snd h4]
      exact hc
    · rw [if_neg hcond] at h4
      have : res.ADM4_PCODE = none := congrArg Prod.snd h4
      rw [this] at hc
      exact absurd hc (by simp)

deriving instance DecidableEq for Except

/-- A concrete scorer standing in for the default `thefuzz` scorer at the
inputs where it is evaluated below: identical strings score 100 and the
entirely dissimilar pairs used in the concrete gazetteers score 0. -/
def eqScore : Scorer :=
  fun q c => if q = c then 100 else 0

/-- Two-region gazetteer used by the C1 counterexample (one chain per
region). -/
def c1Gaz : List PcodeRow :=
  [ { ADM1_EN := "Region One", ADM1_new := "PH01", adm1_clean := some "uno",
      ADM2_EN := "Prov One", ADM2_new := "PH0101", adm2_clean := some "alpha",
      ADM3_EN := "Mun One", ADM3_new := "PH010101", adm3_clean := some "munone",
      ADM4_EN := "Bgy One", ADM4_new := "PH01010101", adm4_clean := some "bgone" },
    { ADM1_EN := "Region Two", ADM1_new := "PH02", adm1_clean := some "dos",
      ADM2_EN := "Prov Two", ADM2_new := "PH0201", adm2_clean := some "beta",
      ADM3_EN := "Mun Two", ADM3_new := "PH020101", adm3_clean := some "muntwo",
      ADM4_EN := "Bgy Two", ADM4_new := "PH02010101", adm4_clean := some "bgtwo" } ]

/-- C1 counterexample input row: its Region resolves to `PH01`, but its
Province name only exists under `PH02`. -/
def c1Row : InRow :=
  { Region := some "uno", Province := some "beta",
    Municipality := some "muntwo", Barangay := none }

/-- The output the code produces for `c1Row`. -/
def c1Res : ResRow :=
  { ADM0_EN := "Philippines", ADM0_PCODE := "PH",
    ADM1_EN := some "Region One", ADM1_PCODE := some "PH01",
    ADM2_EN := some "Prov Two", ADM2_PCODE := some "PH0201",
    ADM3_EN := some "Mun Two", ADM3_PCODE := some "PH020101",
    ADM4_EN := none, ADM4_PCODE := none }

set_option maxHeartbeats 2000000 in
/-- C1 counterexample: Province candidates are NOT scoped to the resolved
Region.  The row resolves Region to `PH01`, yet its Province matches the
gazetteer entry whose parent region is `PH02` (the candidate list
`provinceList` spans both regions), and a Municipality is then resolved
beneath that wrong-parent Province. -/
theorem c1_counterexample :
    resolveRow c1Gaz eqScore true true false c1Row = .ok c1Res ∧
    provinceList c1Gaz = ["alpha", "beta"] ∧
    c1Res.ADM1_PCODE = some "PH01" ∧
    c1Res.ADM2_PCODE = some "PH0201" ∧
    c1Res.ADM3_PCODE = some "PH020101" ∧
    (∀ e ∈ c1Gaz, e.ADM2_new = "PH0201" → e.ADM1_new ≠ "PH01") := by
  refine ⟨by decide, by decide, rfl, rfl, rfl, by decide⟩

/-- Single-chain gazetteer used by the C1 witness. -/
def c1wGaz : List PcodeRow :=
  [ { ADM1_EN := "Region One", ADM1_new := "PH01", adm1_clean := some "uno",
      ADM2_EN := "Prov One", ADM2_new := "PH0101", adm2_clean := some "alpha",
      ADM3_EN := "Mun One", ADM3_new := "PH010101", adm3_clean := some "munone",
      ADM4_EN := "Bgy One", ADM4_new := "PH01010101", adm4_clean := some "bgone" } ]

def c1wRow : InRow :=
  { Region := some "uno", Province := some "alpha",
    Municipality := some "munone", Barangay := some "bgone" }

def c1wRes : ResRow :=
  { ADM0_EN := "Philippines", ADM0_PCODE := "PH",
    ADM1_EN := some "Region One", ADM1_PCODE := some "PH01",
    ADM2_EN := some "Prov One", ADM2_PCODE := some "PH0101",
    ADM3_EN := some "Mun One", ADM3_PCODE := some "PH010101",
    ADM4_EN := some "Bgy One", ADM4_PCODE := some "PH01010101" }

set_option maxHeartbeats 2000000 in
theorem c1_witness :
    ∃ e, e ∈ c1wGaz ∧ e.ADM3_new = "PH010101" ∧ some e.ADM2_new = c1wRes.ADM2_PCODE :=
  (c1_amended c1wGaz eqScore true true true c1wRow c1wRes (by decide)).2.1 "PH010101" (by decide)

/-- C3 (amended): a resolution miss is always encoded as nulls and never
raised: `resolveRow` never returns an exception; and below a missed
Province every descendant level is `(null, null)`, below a missed
Municipality the Barangay level is `(null, null)`.  (A missed Region does
not null its descendants: Province matching is unscoped, and a Province
hit backfills the Region — see the counterexample.) -/
theorem c3_amended (gaz : List PcodeRow) (sc : Scorer) (hp hm hb : Bool) (r : InRow) :
    (∃ res, resolveRow gaz sc hp hm hb r = .ok res) ∧
    (∀ res, resolveRow gaz sc hp hm hb r = .ok res →
      (res.ADM2_PCODE = none →
        res.ADM3_EN = none ∧ res.ADM3_PCODE = none ∧
          res.ADM4_EN = none ∧ res.ADM4_PCODE = none) ∧
      (res.ADM3_PCODE = none → res.ADM4_EN = none ∧ res.ADM4_PCODE = none)) := by
  refine ⟨resolveRow_ok gaz sc hp hm hb r, ?_⟩
  intro res hres
  obtain ⟨h3, h4⟩ := resolveRow_fields gaz sc hp hm hb r res hres
  constructor
  · intro h2
    rw [h2] at h3
    have h3' : (res.ADM3_EN, res.ADM3_PCODE) = (none, none) := by
      rw [h3]
      by_cases hcond : (hm && hp) = true
      · rw [if_pos hcond, match_municipality_none]
      · rw [if_neg hcond]
    have e3en : res.ADM3_EN = none := congrArg Prod.fst h3'
    have e3pc : res.ADM3_PCODE = none := congrArg Prod.snd h3'
    rw [e3pc] at h4
    have h4' : (res.ADM4_EN, res.ADM4_PCODE) = (none, none) := by
      rw [h4]
      by_cases hcond : (hb && hm) = true
      · rw [if_pos hcond, match_barangay_none]
      · rw [if_neg hcond]
    exact ⟨e3en, e3pc, congrArg Prod.fst h4', congrArg Prod.snd h4'⟩
  · intro h3pc
    rw [h3pc] at h4
    have h4' : (res.ADM4_EN, res.ADM4_PCODE) = (none, none) := by
      rw [h4]
      by_cases hcond : (hb && hm) = true
      · rw [if_pos hcond, match_barangay_none]
      · rw [if_neg hcond]
    exact ⟨congrArg Prod.fst h4', congrArg Prod.snd h4'⟩

/-- Two-region gazetteer used by the C3 counterexample. -/
def c3Gaz : List PcodeRow :=
  [ { ADM1_EN := "Region One", ADM1_new := "PH01", adm1_clean := some "uno",
      ADM2_EN := "Prov One", ADM2_new := "PH0101", adm2_clean := some "alpha",
      ADM3_EN := "Mun One", ADM3_new := "PH010101", adm3_clean := some "munone",
      ADM4_EN := "Bgy One", ADM4_new := "PH01010101", adm4_clean := some "bgone" },
    { ADM1_EN := "Region Two", ADM1_new := "PH02", adm1_clean := some "dos",
      ADM2_EN := "Prov Two", ADM2_new := "PH0201", adm2_clean := some "beta",
      ADM3_EN := "Mun Two", ADM3_new := "PH020101", adm3_clean := some "muntwo",
      ADM4_EN := "Bgy Two", ADM4_new := "PH02010101", adm4_clean := some "bgtwo" } ]

/-- C3 counterexample input: the Region name matches nothing, the
Province name matches exactly. -/
def c3Row : InRow :=
  { Region := some "qq", Province := some "beta",
    Municipality := none, Barangay := none }

def c3Res : ResRow :=
  { ADM0_EN := "Philippines", ADM0_PCODE := "PH",
    ADM1_EN := some "Region Two", ADM1_PCODE := some "PH02",
    ADM2_EN := some "Prov Two", ADM2_PCODE := some "PH0201",
    ADM3_EN := none, ADM3_PCODE := none,
    ADM4_EN := none, ADM4_PCODE := none }

set_option maxHeartbeats 2000000 in
/-- C3 counterexample: the Region level fails to resolve (no exact hit,
fuzzy score 0 below the threshold), yet its descendant Province level
resolves non-null — and even backfills the Region code — so "whenever a
level fails to resolve, every descendant level resolves to (null, null)"
is false at the Region level. -/
theorem c3_counterexample :
    match_region c3Gaz eqScore (get_clean_names (fillnaStr c3Row.Region)) = .ok (none, none) ∧
    resolveRow c3Gaz eqScore true true false c3Row = .ok c3Res ∧
    c3Res.ADM2_PCODE = some "PH0201" ∧
    c3Res.ADM1_PCODE = some "PH02" := by
  refine ⟨by decide, by decide, rfl, rfl⟩

def c3wRow : InRow :=
  { Region := none, Province := none, Municipality := none, Barangay := none }

def c3wRes : ResRow :=
  { ADM0_EN := "Philippines", ADM0_PCODE := "PH",
    ADM1_EN := none, ADM1_PCODE := none, ADM2_EN := none, ADM2_PCODE := none,
    ADM3_EN := none, ADM3_PCODE := none, ADM4_EN := none, ADM4_PCODE := none }

theorem c3_witness :
    c3wRes.ADM3_EN = none ∧ c3wRes.ADM3_PCODE = none ∧
      c3wRes.ADM4_EN = none ∧ c3wRes.ADM4_PCODE = none :=
  ((c3_amended [] eqScore true true true c3wRow).2 c3wRes (by decide)).1 (by decide)

/-- C5: a fuzzy candidate scoring exactly the threshold 80 is accepted
(the matched row's name and code are recorded), and when every candidate
scores at most 79 the level resolves to `(null, null)`. -/
theorem c5_threshold (gaz : List PcodeRow) (sc : Scorer) (nm : String) (hnm : nm ≠ "") :
    ((∀ c ∈ regionList gaz, sc nm c ≤ 80) → (∃ c ∈ regionList gaz, sc nm c = 80) →
      ∃ en pc, match_region gaz sc nm = .ok (some en, some pc)) ∧
    ((∀ c ∈ regionList gaz, sc nm c ≤ 79) →
      match_region gaz sc nm = .ok (none, none)) := by
  constructor
  · intro _ hex
    obtain ⟨c, hc, h80⟩ := hex
    unfold match_region
    rw [if_neg hnm]
    obtain ⟨m, s2, hsome⟩ :=
      extractOne_some_of_hit sc nm (regionList gaz) 80 c hc (Nat.le_of_eq h80.symm)
    rw [hsome]
    have hmem : m ∈ regionList gaz := extractOne_mem sc nm _ 80 m s2 hsome
    show ∃ en pc, regionLookup gaz m = .ok (some en, some pc)
    have hex2 : ∃ e, e ∈ gaz ∧ e.adm1_clean = some m := by
      have := mem_of_mem_dedupFirst m _ hmem
      simpa [List.mem_filterMap] using this
    obtain ⟨e0, he0, hc0⟩ := hex2
    unfold regionLookup
    cases hf : gaz.find? (fun e => decide (e.adm1_clean = some m)) with
    | none =>
      rw [List.find?_eq_none] at hf
      exact absurd (by simpa using hc0) (by simpa using hf e0 he0)
    | some e => exact ⟨e.ADM1_EN, e.ADM1_new, rfl⟩
  · intro h79
    unfold match_region
    rw [if_neg hnm]
    rw [extractOne_none_of_below sc nm (regionList gaz) 80
      (fun c hc => Nat.lt_of_le_of_lt (h79 c hc) (by omega))]

/-- One-entry gazetteer for the C5 witness. -/
def c5Gaz : List PcodeRow :=
  [ { ADM1_EN := "Region Nine", ADM1_new := "PH09", adm1_clean := some "ab",
      ADM2_EN := "", ADM2_new := "", adm2_clean := none,
      ADM3_EN := "", ADM3_new := "", adm3_clean := none,
      ADM4_EN := "", ADM4_new := "", adm4_clean := none } ]

/-- A scorer whose best candidate scores exactly 80. -/
def score80 : Scorer :=
  fun q c => if q = c then 80 else 0

/-- A scorer whose best candidate scores exactly 79. -/
def score79 : Scorer :=
  fun q c => if q = c then 79 else 0

theorem c5_witness :
    (∃ en pc, match_region c5Gaz score80 "ab" = .ok (some en, some pc)) ∧
      match_region c5Gaz score79 "ab" = .ok (none, none) :=
  ⟨(c5_threshold c5Gaz score80 "ab" (by decide)).1 (by decide) (by decide),
    (c5_threshold c5Gaz score79 "ab" (by decide)).2 (by decide)⟩

/-!
## Counter strategy (`src/dromic_extractor.py`, `detect_admin_levels`,
and `src/transformations.py`, `transform_damaged_houses` Step 16)
-/

/-- `str(x)` on an optional cell: Python renders `None` as `"None"`. -/
def pyStr : Option String → String
  | none => "None"
  | some s => s

/-- Python `str.strip()` on a `String`. -/
def pyStripS (s : String) : String :=
  String.mk (pyStripL s.data)

/-- pandas `Series.all()` on one numeric column (`none` = NaN): a zero
fails, a missing value is skipped by `all` and therefore passes
(`dromic_extractor.py` line 129). -/
def colPasses (col : List (Option Int)) : Bool :=
  col.all (fun v => v ≠ some 0)

/-- "All values present and non-zero", the spec's wording of the
counting-column precondition. -/
def allPresentNonzero (col : List (Option Int)) : Bool :=
  col.all (fun v => match v with | some n => decide (n ≠ 0) | none => false)

/-- Index of the first numeric column passing `colPasses`. -/
def firstPass : List (List (Option Int)) → Option Nat
  | [] => none
  | c :: cs => if colPasses c then some 0 else (firstPass cs).map (· + 1)

/-- `detect_admin_levels` lines 128-132: pick the first numeric column
whose values are all truthy, else raise `ValueError`. -/
def selectCountingColumn (cols : List (List (Option Int))) : Except String Nat :=
  match firstPass cols with
  | none => .error "No numeric column found with all non-zero values"
  | some i => .ok i

theorem firstPass_eq_none (cols : List (List (Option Int))) :
    firstPass cols = none ↔ ∀ col ∈ cols, colPasses col = false := by
  induction cols with
  | nil => simp [firstPass]
  | cons c cs ih =>
    by_cases hc : colPasses c
    · simp [firstPass, hc]
    · simp only [firstPass, if_neg hc, Option.map_eq_none', ih, List.mem_cons]
      constructor
      · intro hall col hcol
        rcases hcol with h | h
        · subst h; exact Bool.eq_false_iff.mpr hc
        · exact hall col h
      · intro hall col hcol
        exact hall col (Or.inr hcol)

/-- C8 (amended): the counter strategy fails hard — `ValueError`
surfaced to the caller, never a silent continuation — exactly when no
numeric column has every *truthy* value, i.e. every column contains an
explicit zero; a missing (NaN) value is skipped by the pandas `all` and
does not disqualify a column, contrary to the claim's "all values
present". -/
theorem c8_amended (cols : List (List (Option Int))) :
    ((∀ col ∈ cols, colPasses col = false) →
      selectCountingColumn cols = .error "No numeric column found with all non-zero values") ∧
    ((∃ col ∈ cols, colPasses col = true) → ∃ i, selectCountingColumn cols = .ok i) := by
  constructor
  · intro hall
    unfold selectCountingColumn
    rw [(firstPass_eq_none cols).mpr hall]
  · intro hex
    unfold selectCountingColumn
    cases hfp : firstPass cols with
    | none =>
      obtain ⟨col, hcol, hpass⟩ := hex
      have := (firstPass_eq_none cols).mp hfp col hcol
      rw [this] at hpass
      exact absurd hpass (by simp)
    | some i => exact ⟨i, rfl⟩

/-- C8 counterexample: the single numeric column `[1, NaN]` has a missing
value, so no column has "all values present and non-zero"; yet the code
does not fail — pandas `all` skips the NaN and the column is selected. -/
theorem c8_counterexample :
    (∀ col ∈ [[some (1 : Int), none]], allPresentNonzero col = false) ∧
      selectCountingColumn [[some (1 : Int), none]] = .ok 0 :=
  ⟨by decide, by decide⟩

theorem c8_witness :
    selectCountingColumn [[some (0 : Int)]] =
        .error "No numeric column found with all non-zero values" ∧
      ∃ i, selectCountingColumn [[some (1 : Int)]] = .ok i :=
  ⟨(c8_amended [[some (0 : Int)]]).1 (by decide),
    (c8_amended [[some (1 : Int)]]).2 (by decide)⟩

/-- The counter loop of `detect_admin_levels` (lines 162-188) over the
counting-column values of the non-region/non-HUC rows, as a fold.  State:
the running target (`adm2_value`), the stored counter of the previous row
(`adm3_counter`, which stays 0 on header rows), and whether the current
row was flagged `adm2`.  Output: the `(adm2, adm3)` flags per row.
Python `round()` is the identity on the integer-valued data this models. -/
def detectAdm23Go (target prevCtr : Int) (isHdr : Bool) :
    List Int → List (Bool × Bool)
  | [] => []
  | v :: vs =>
    let c : Int := if isHdr then 0 else prevCtr + v
    let adm3 : Bool := decide (0 < c ∧ c ≤ target)
    if c = target then
      (isHdr, adm3) :: detectAdm23Go (match vs with | w :: _ => w | [] => target) 0 true vs
    else
      (isHdr, adm3) :: detectAdm23Go target c false vs

/-- Lines 166-188: the first row is the first `adm2` header and its value
the first target (`iloc[0]` raises `IndexError` on an empty frame). -/
def detect_admin23 (values : List Int) : Except String (List (Bool × Bool)) :=
  match values with
  | [] => .error "IndexError"
  | v :: vs => .ok (detectAdm23Go v 0 true (v :: vs))

/-- Step 16 of `transform_damaged_houses` (lines 591-633): the
cumulative-total municipality/barangay assignment, one output pair
`(Municipality, Barangay)` per row.  A row is `(province, location,
Grand_Total_Damaged)`; `prevProv` is `previous_province` (`none` =
Python `None`); pandas `!=` against it is `True` unless both sides are
the same non-null string.  The numeric column is modelled on the
integers, exact for the integer-valued data these claims concern. -/
def dhGo (prevProv : Option (Option String)) (tracking : Bool) (target cum : Int)
    (rows : List (Option String × Option String × Option Int)) :
    List (Option String × Option String) :=
  match rows with
  | [] => []
  | (prov, loc, gtd) :: rest =>
    let changed : Bool :=
      match prov, prevProv with
      | some s, some (some t) => decide (s ≠ t)
      | _, _ => true
    let tracking2 := if changed then false else tracking
    let target2 := if changed then 0 else target
    let cum2 := if changed then 0 else cum
    let prevProv2 := if changed then some prov else prevProv
    let locS := pyStripS (pyStr loc)
    if locS = "" || locS = "nan" then
      (none, none) :: dhGo prevProv2 false 0 0 rest
    else if tracking2 then
      let cum3 := cum2 + gtd.getD 0
      if cum3 ≥ target2 then
        (none, some locS) :: dhGo prevProv2 false 0 0 rest
      else
        (none, some locS) :: dhGo prevProv2 true target2 cum3 rest
    else
      (some locS, none) :: dhGo prevProv2 true (gtd.getD 0) 0 rest
termination_by structural rows

/-- Step 17 (line 636): forward-fill of the Municipality column. -/
def ffillFst (carry : Option String) (l : List (Option String × Option String)) :
    List (Option String × Option String) :=
  match l with
  | [] => []
  | (m, b) :: rest => (m <|> carry, b) :: ffillFst (m <|> carry) rest
termination_by structural l

/-- Steps 16-17 composed, from the initial state of lines 592-595. -/
def dhAssign (rows : List (Option String × Option String × Option Int)) :
    List (Option String × Option String) :=
  ffillFst none (dhGo none false 0 0 rows)

set_option maxHeartbeats 2000000 in
/-- C4: in both counter implementations, a Municipality header declaring
total 50 followed by values [20, 15, 15] labels those three rows Barangay
under it, closes the group exactly at the third (20+15+15 = 50), and the
next row starts a new Municipality group whose target is that row's own
value (60 here: the following rows 25, 35 close the new group at
25+35 = 60, which only happens if the target was re-read). -/
theorem c4_counter :
    detect_admin23 [50, 20, 15, 15, 60, 25, 35] =
      .ok [(true, false), (false, true), (false, true), (false, true),
           (true, false), (false, true), (false, true)] ∧
    dhAssign [(some "P", some "M1", some 50), (some "P", some "B1", some 20),
              (some "P", some "B2", some 15), (some "P", some "B3", some 15),
              (some "P", some "M2", some 60), (some "P", some "B4", some 25)] =
      [(some "M1", none), (some "M1", some "B1"), (some "M1", some "B2"),
       (some "M1", some "B3"), (some "M2", none), (some "M2", some "B4")] :=
  ⟨by decide, by decide⟩

/-!
## Hierarchy Reconstructor (`src/transformations.py`,
`extract_location_hierarchy`)

A DataFrame is a list of row records; the derived columns (`Region`,
`Province`, `Municipality`, `Barangay`, `Is_Province_Header`, `Is_HUC`,
`Level`) are record fields holding `none` until the corresponding step
assigns them.  STEP 14's column reordering is a presentation concern of
the columnar layout and has no counterpart in the record representation.
The constants `REGION_IDENTIFIERS`, `REGION_PROVINCE_MAP` and `HUCS`
come from `config.py`, which is not under `src/`; modelled from the spec:
they are the Region-identifier list, the region → province-names map and
the HUC-name → owning-region map, taken here as parameters (`HConfig`). -/
structure HConfig where
  regionIdentifiers : List String
  regionProvinceMap : List (String × List String)
  hucs : List (String × String)
  hasAffected : Bool

/-- One input row: the `Location` cell, the `Sub-total` cell, the
`Affected_Persons` numeric cell (used only by STEP 5d, present only when
`hasAffected`), and the untouched remaining payload cells. -/
structure SrcRow where
  location : Option String
  subtotal : Option String
  affected : Option Rat
  payload : List (Option String)
deriving DecidableEq

/-- A working row during the pipeline. -/
structure WRow where
  location : Option String
  subtotal : Option String
  affected : Option Rat
  payload : List (Option String)
  region : Option String
  province : Option String
  municipality : Option String
  barangay : Option String
  isProvHeader : Bool
  isHuc : Bool
deriving DecidableEq

/-- An output row (`Is_HUC` dropped at STEP 13, `Level` added at
STEP 16). -/
structure ORow where
  region : Option String
  province : Option String
  municipality : Option String
  barangay : Option String
  location : Option String
  subtotal : Option String
  affected : Option Rat
  payload : List (Option String)
  isProvHeader : Bool
  level : Option String
deriving DecidableEq

/-- Python `str.upper()` on the repertoire used here. -/
def pyUpperS (s : String) : String :=
  String.mk (s.data.map upperChar)

/-- Python `str.isupper()`: at least one cased character and no
lower-case cased character (ASCII model). -/
def pyIsUpper (s : String) : Bool :=
  s.data.any (fun c => ('a' ≤ c && c ≤ 'z') || ('A' ≤ c && c ≤ 'Z')) &&
    !(s.data.any (fun c => 'a' ≤ c && c ≤ 'z'))

/-- Python `dict` lookup (`HUCS.get`, `REGION_PROVINCE_MAP[...]`),
modelled on an association list with distinct keys. -/
def lookupA {α : Type} (m : List (String × α)) (k : String) : Option α :=
  (m.find? (fun p => decide (p.1 = k))).map (·.2)

/-- pandas elementwise `==` on two object cells: `True` only when both
are non-null and equal (NaN compares unequal to everything). -/
def optEqS (a b : Option String) : Bool :=
  match a, b with
  | some x, some y => decide (x = y)
  | _, _ => false

/-- `pd.notna(subtotal) and str(subtotal).strip() != ''` (lines 163,
180). -/
def subtotalPresent (o : Option String) : Bool :=
  match o with
  | none => false
  | some s => decide (pyStripS s ≠ "")

/-- STEP 0 (line 21): drop rows whose Location contains "GRAND TOTAL"
case-insensitively (`na=False` keeps null Locations). -/
def step0 (rows : List WRow) : List WRow :=
  rows.filter (fun r =>
    !(match r.location with
      | some s => containsSub "grand total".data (s.data.map lowerChar)
      | none => false))

/-- STEP 3 (lines 26-31): a row whose stripped upper-cased Location is a
Region identifier stores its Location in the Region column. -/
def step3 (cfg : HConfig) (rows : List WRow) : List WRow :=
  rows.map (fun r =>
    if cfg.regionIdentifiers.contains (pyUpperS (pyStripS (pyStr r.location))) then
      { r with region := r.location }
    else r)

/-- STEP 4 (line 34): plain forward fill of the Region column. -/
def ffillRegion (carry : Option String) (rows : List WRow) : List WRow :=
  match rows with
  | [] => []
  | r :: rest =>
    ((fun v => { r with region := v } :: ffillRegion v rest) (r.region <|> carry))
termination_by structural rows

/-- STEP 5 (lines 37-54): province headers — a Location that is a HUC of
the row's Region, or an upper-case member of the Region's province
list. -/
def step5 (cfg : HConfig) (rows : List WRow) : List WRow :=
  rows.map (fun r =>
    match r.region with
    | none => r
    | some reg =>
      let region_s := pyUpperS (pyStripS reg)
      let location_s := pyUpperS (pyStripS (pyStr r.location))
      let orig := pyStripS (pyStr r.location)
      if lookupA cfg.hucs location_s = some region_s then
        { r with province := r.location, isProvHeader := true }
      else
        match lookupA cfg.regionProvinceMap region_s with
        | some plist =>
          if plist.contains location_s && pyIsUpper orig then
            { r with province := r.location, isProvHeader := true }
          else r
        | none => r)

/-- `unique()` over the Region column (first occurrences, in order). -/
def uniqueOpts (seen l : List (Option String)) : List (Option String) :=
  match l with
  | [] => []
  | x :: xs => if seen.contains x then uniqueOpts seen xs else x :: uniqueOpts (x :: seen) xs
termination_by structural l

/-- The inner scan of STEP 5d (lines 92-123): walk the rows below a
candidate province row, within the same Region, accumulating positive
`Affected_Persons` values; `true` iff the cumulative sum hits the
candidate's own total exactly (before overshooting, before a
half-or-larger sibling province name, and before the Region changes). -/
def scanBelow (plist : List String) (regVal : String) (total cum : Rat)
    (below : List WRow) : Bool :=
  match below with
  | [] => false
  | r :: rest =>
    if !(optEqS r.region (some regVal)) then false
    else
      let locS := pyStripS (pyStr r.location)
      if locS = "" || locS = "nan" || locS = "None" then
        scanBelow plist regVal total cum rest
      else
        let aff := r.affected.getD 0
        if 0 < aff then
          if plist.contains (pyUpperS locS) && total * (1 / 2) ≤ aff then false
          else if cum + aff = total then true
          else if total < cum + aff then false
          else scanBelow plist regVal total (cum + aff) rest
        else scanBelow plist regVal total cum rest
termination_by structural below

/-- One candidate row of STEP 5d (lines 78-123): promote row `i` to
Province when its own positive total is exactly matched below it. -/
def step5dTry (plist : List String) (regVal : String) (i : Nat) (rows : List WRow) :
    List WRow :=
  match rows.get? i with
  | none => rows
  | some tr =>
    match tr.affected with
    | none => rows
    | some total =>
      if total ≤ 0 then rows
      else if scanBelow plist regVal total 0 (rows.drop (i + 1)) then
        rows.set i { tr with province := tr.location, isProvHeader := true }
      else rows

/-- One province name of STEP 5d (lines 71-77): the candidate rows are
computed once — same Region value, Location equal to the province name up
to case, Province still unset — then tried in order. -/
def step5dProv (plist : List String) (regVal : String) (pname : String)
    (rows : List WRow) : List WRow :=
  let cand := ((rows.enum.filter (fun p =>
    optEqS p.2.region (some regVal) &&
    (match p.2.location with
     | some s => decide (pyUpperS s = pyUpperS pname)
     | none => false) &&
    p.2.province.isNone)).map (·.1))
  cand.foldl (fun acc i => step5dTry plist regVal i acc) rows

/-- One Region of STEP 5d (lines 61-69). -/
def step5dRegion (cfg : HConfig) (rows : List WRow) (regOpt : Option String) :
    List WRow :=
  match regOpt with
  | none => rows
  | some reg =>
    match lookupA cfg.regionProvinceMap (pyUpperS (pyStripS reg)) with
    | none => rows
    | some plist => plist.foldl (fun acc pname => step5dProv plist reg pname acc) rows

/-- STEP 5d (lines 56-125): runs only when the frame has an
`Affected_Persons` column. -/
def step5d (cfg : HConfig) (rows : List WRow) : List WRow :=
  if cfg.hasAffected then
    (uniqueOpts [] (rows.map (·.region))).foldl (step5dRegion cfg) rows
  else rows

/-- The HUC test of STEPs 5a and 11 (lines 128-133, 188-193). -/
def hucCheckW (cfg : HConfig) (r : WRow) : Bool :=
  match r.province, r.region with
  | some p, some rg =>
    decide (lookupA cfg.hucs (pyUpperS (pyStripS p)) = some (pyUpperS (pyStripS rg)))
  | _, _ => false

/-- STEP 5a: record which rows are HUC province rows. -/
def step5a (cfg : HConfig) (rows : List WRow) : List WRow :=
  rows.map (fun r => { r with isHuc := hucCheckW cfg r })

/-- STEP 5b (lines 136-139): save the HUC `(Region, Location, Province)`
triples, then null the HUC provinces so they do not forward-fill. -/
def hucBackup (rows : List WRow) : List (Option String × Option String × Option String) :=
  (rows.filter (·.isHuc)).map (fun r => (r.region, r.location, r.province))

def step5b (rows : List WRow) : List WRow :=
  rows.map (fun r => if r.isHuc then { r with province := none } else r)

/-- STEP 6 (line 142): drop Region header rows. -/
def step6 (rows : List WRow) : List WRow :=
  rows.filter (fun r => !(optEqS r.region r.location && r.province.isNone && !r.isHuc))

/-- STEP 7 (line 145): `groupby('Region')['Province'].ffill()` — the fill
is carried per Region value; rows with a null Region key fall out of the
grouped result and read back as NaN on assignment. -/
def ffillProvGo (assoc : List (String × String)) (rows : List WRow) : List WRow :=
  match rows with
  | [] => []
  | r :: rest =>
    match r.region with
    | none => { r with province := none } :: ffillProvGo assoc rest
    | some k =>
      ((fun newv =>
        { r with province := newv } ::
          ffillProvGo (match newv with | some v => (k, v) :: assoc | none => assoc) rest)
        (r.province <|> lookupA assoc k))
termination_by structural rows

/-- STEP 7a (lines 148-150): restore the HUC provinces on the rows
matching the saved Region and Location. -/
def step7a (backup : List (Option String × Option String × Option String))
    (rows : List WRow) : List WRow :=
  backup.foldl (fun acc bk =>
    acc.map (fun r =>
      if optEqS r.region bk.1 && optEqS r.location bk.2.1 then
        { r with province := bk.2.2 }
      else r)) rows

/-- STEP 8 (lines 153-164): a row is a Municipality header when its
Location is a HUC of its Region or its Sub-total cell is non-blank. -/
def step8 (cfg : HConfig) (rows : List WRow) : List WRow :=
  rows.map (fun r =>
    let region_s := match r.region with | some s => pyUpperS (pyStripS s) | none => ""
    let location_s := match r.location with | some s => pyUpperS (pyStripS s) | none => ""
    if lookupA cfg.hucs location_s = some region_s then
      { r with municipality := r.location }
    else if subtotalPresent r.subtotal then
      { r with municipality := r.location }
    else
      { r with municipality := none })

/-- STEP 9 (line 167): `groupby(['Region', 'Province'])['Municipality']
.ffill()`; rows with a null key in either column fall out of the grouped
result and read back as NaN. -/
def ffillMunGo (assoc : List ((String × String) × String)) (rows : List WRow) :
    List WRow :=
  match rows with
  | [] => []
  | r :: rest =>
    match r.region, r.province with
    | some kr, some kp =>
      ((fun newv =>
        { r with municipality := newv } ::
          ffillMunGo (match newv with
            | some v => ((kr, kp), v) :: assoc
            | none => assoc) rest)
        (r.municipality <|>
          ((assoc.find? (fun p => decide (p.1 = (kr, kp)))).map (·.2))))
    | _, _ => { r with municipality := none } :: ffillMunGo assoc rest
termination_by structural rows

/-- STEP 10 (lines 170-184), one row: HUC and Sub-total rows re-assert
their Municipality and clear Barangay; every other row becomes a
Barangay row. -/
def step10Row (cfg : HConfig) (r : WRow) : WRow :=
  let region_s := match r.region with | some s => pyUpperS (pyStripS s) | none => ""
  let location_s := match r.location with | some s => pyUpperS (pyStripS s) | none => ""
  if lookupA cfg.hucs location_s = some region_s then
    { r with municipality := r.location, barangay := none }
  else if subtotalPresent r.subtotal then
    { r with municipality := r.location, barangay := none }
  else
    { r with barangay := r.location }

def step10 (cfg : HConfig) (rows : List WRow) : List WRow :=
  rows.map (step10Row cfg)

/-- STEP 11 (lines 186-194): drop Province header rows except HUCs. -/
def step11 (cfg : HConfig) (rows : List WRow) : List WRow :=
  rows.filter (fun r => !(r.isProvHeader && !hucCheckW cfg r))

/-- STEP 12 (line 197): drop page-break rows whose Location is the
literal string "None" (a null Location compares unequal and is kept). -/
def step12 (rows : List WRow) : List WRow :=
  rows.filter (fun r => decide (r.location ≠ some "None"))

/-- STEP 12a (line 199): keep only rows with a non-null, non-blank
Location. -/
def step12a (rows : List WRow) : List WRow :=
  rows.filter (fun r =>
    match r.location with
    | some s => decide (pyStripS s ≠ "")
    | none => false)

/-- STEP 13: drop the `Is_HUC` helper column (and prepare the `Level`
column of STEP 16). -/
def toORow (r : WRow) : ORow :=
  { region := r.region, province := r.province, municipality := r.municipality,
    barangay := r.barangay, location := r.location, subtotal := r.subtotal,
    affected := r.affected, payload := r.payload, isProvHeader := r.isProvHeader,
    level := none }

/-- STEP 15 (line 211): `drop_duplicates(keep='first')` over all
remaining columns. -/
def dedupORows (seen l : List ORow) : List ORow :=
  match l with
  | [] => []
  | x :: xs => if seen.contains x then dedupORows seen xs else x :: dedupORows (x :: seen) xs
termination_by structural l

/-- Is the Barangay cell non-null and non-blank (STEP 16, line 217)? -/
def bFilledO (r : ORow) : Bool :=
  match r.barangay with
  | some s => decide (pyStripS s ≠ "")
  | none => false

/-- STEP 16 (lines 214-224), one row: label the data granularity. -/
def step16Row (r : ORow) : ORow :=
  if bFilledO r then { r with level := some "Barangay" }
  else
    let hasLoc : Bool :=
      match r.location with
      | some s => decide (pyStripS s ≠ "") && decide (pyUpperS (pyStripS s) ≠ "NONE")
      | none => false
    if r.municipality.isSome && hasLoc then { r with level := some "Municipality" }
    else r

def step16 (rows : List ORow) : List ORow :=
  rows.map step16Row

/-- `extract_location_hierarchy` (lines 4-228): the composed pipeline. -/
def extract_location_hierarchy (cfg : HConfig) (rows : List SrcRow) : List ORow :=
  let l0 := step0 (rows.map (fun r =>
    { location := r.location, subtotal := r.subtotal, affected := r.affected,
      payload := r.payload, region := none, province := none, municipality := none,
      barangay := none, isProvHeader := false, isHuc := false }))
  let l5 := step5a cfg (step5d cfg (step5 cfg (ffillRegion none (step3 cfg l0))))
  let bk := hucBackup l5
  let l9 := ffillMunGo [] (step8 cfg (step7a bk (ffillProvGo [] (step6 (step5b l5)))))
  step16 (dedupORows [] ((step12a (step12 (step11 cfg (step10 cfg l9)))).map toORow))

/-- A row assigned a Municipality by the grouped forward fill of STEP 9
necessarily lies in a group, i.e. has non-null Region and Province keys
(rows with a null key get `none` back from the group-wise fill). -/
theorem ffillMunGo_keys :
    ∀ (rows : List WRow) (assoc : List ((String × String) × String)),
      ∀ r' ∈ ffillMunGo assoc rows, r'.municipality.isSome = true →
        r'.region.isSome = true ∧ r'.province.isSome = true := by
  intro rows
  induction rows with
  | nil =>
    intro assoc r' h
    simp [ffillMunGo] at h
  | cons r rest ih =>
    intro assoc r' h hm
    rw [ffillMunGo] at h
    split at h
    next kr kp hkr hkp =>
      simp only [] at h
      rcases List.mem_cons.mp h with h | h
      · subst h
        constructor
        · show r.region.isSome = true
          rw [hkr]; rfl
        · show r.province.isSome = true
          rw [hkp]; rfl
      · exact ih _ r' h hm
    next h1 h2 =>
      rcases List.mem_cons.mp h with h | h
      · subst h
        simp at hm
      · exact ih _ r' h hm

/-- The Barangay cell of a working row is non-null and non-blank. -/
def bFilledW (r : WRow) : Bool :=
  match r.barangay with
  | some s => decide (pyStripS s ≠ "")
  | none => false

/-- The key STEP 10 fact: a row it turns into a Barangay row keeps the
Municipality, Region and Province of STEP 9; the other two branches
clear the Barangay cell. -/
theorem step10Row_spec (cfg : HConfig) (r : WRow) :
    (step10Row cfg r).barangay = none ∨
      ((step10Row cfg r).municipality = r.municipality ∧
        (step10Row cfg r).region = r.region ∧ (step10Row cfg r).province = r.province) := by
  dsimp only [step10Row]
  split
  · simp
  · split
    · simp
    · simp

theorem step10Row_keys (cfg : HConfig) (r : WRow) :
    (step10Row cfg r).region = r.region ∧ (step10Row cfg r).province = r.province := by
  dsimp only [step10Row]
  split
  · simp
  · split
    · simp
    · simp

theorem mem_of_mem_dedupORows (x : ORow) :
    ∀ (l seen : List ORow), x ∈ dedupORows seen l → x ∈ l := by
  intro l
  induction l with
  | nil => intro seen h; rw [dedupORows] at h; exact absurd h (List.not_mem_nil x)
  | cons y ys ih =>
    intro seen h
    rw [dedupORows] at h
    by_cases hy : seen.contains y
    · rw [if_pos hy] at h
      exact List.mem_cons_of_mem y (ih seen h)
    · rw [if_neg hy] at h
      rcases List.mem_cons.mp h with h | h
      · exact h ▸ List.mem_cons_self y ys
      · exact List.mem_cons_of_mem y (ih (y :: seen) h)

/-- `okO r`: if the row is Barangay-filled and carries a Municipality,
its Region and Province are non-null. -/
def okO (r : ORow) : Prop :=
  bFilledO r = true → r.municipality.isSome = true →
    r.region.isSome = true ∧ r.province.isSome = true

theorem step16Row_spec (r : ORow) (hok : okO r) (hlev : r.level = none) :
    (step16Row r).level = some "Barangay" → (step16Row r).municipality.isSome = true →
      (step16Row r).region.isSome = true ∧ (step16Row r).province.isSome = true := by
  dsimp only [step16Row]
  split
  next h1 =>
    intro _ hmun
    exact hok h1 hmun
  next h1 =>
    split
    next h2 =>
      intro hlev2 _
      exact absurd (Option.some.inj hlev2) (by decide)
    next h2 =>
      intro hlev2 _
      rw [hlev] at hlev2
      exact absurd hlev2 (by simp)

/-- The tail of the pipeline, STEP 9 through STEP 16: any output row
labeled Barangay with a non-null Municipality has non-null Region and
Province. -/
theorem pipeline_tail_ok (cfg : HConfig) (z : List WRow) (r : ORow)
    (hmem : r ∈ step16 (dedupORows []
      ((step12a (step12 (step11 cfg (step10 cfg (ffillMunGo [] z))))).map toORow)))
    (hlev : r.level = some "Barangay") (hmun : r.municipality.isSome = true) :
    r.region.isSome = true ∧ r.province.isSome = true := by
  simp only [step16, List.mem_map] at hmem
  obtain ⟨r0, hr0, hEq⟩ := hmem
  have hr0' := mem_of_mem_dedupORows r0 _ [] hr0
  simp only [List.mem_map] at hr0'
  obtain ⟨w, hw, hwEq⟩ := hr0'
  have hw1 : w ∈ step12 (step11 cfg (step10 cfg (ffillMunGo [] z))) :=
    (List.mem_filter.mp hw).1
  have hw2 : w ∈ step11 cfg (step10 cfg (ffillMunGo [] z)) :=
    (List.mem_filter.mp hw1).1
  have hw3 : w ∈ step10 cfg (ffillMunGo [] z) :=
    (List.mem_filter.mp hw2).1
  simp only [step10, List.mem_map] at hw3
  obtain ⟨v, hv, hvEq⟩ := hw3
  have hokw : okO r0 := by
    intro hb hm
    subst hwEq
    subst hvEq
    have hbw : bFilledW (step10Row cfg v) = true := hb
    have hmw : (step10Row cfg v).municipality.isSome = true := hm
    rcases step10Row_spec cfg v with hnone | ⟨hm1, hr1, hp1⟩
    · rw [bFilledW, hnone] at hbw
      exact absurd hbw (by simp)
    · have hv9 := ffillMunGo_keys z [] v hv (by rw [← hm1]; exact hmw)
      obtain ⟨hkeys1, hkeys2⟩ := step10Row_keys cfg v
      constructor
      · show (toORow (step10Row cfg v)).region.isSome = true
        have hre : (toORow (step10Row cfg v)).region = (step10Row cfg v).region := rfl
        rw [hre, hkeys1]; exact hv9.1
      · show (toORow (step10Row cfg v)).province.isSome = true
        have hpe : (toORow (step10Row cfg v)).province = (step10Row cfg v).province := rfl
        rw [hpe, hkeys2]; exact hv9.2
  have hlev0 : r0.level = none := by
    subst hwEq; rfl
  subst hEq
  exact step16Row_spec r0 hokw hlev0 hlev hmun

/-- C2 (amended): for every output row of `extract_location_hierarchy`
with `Level = Barangay`, if the Municipality field is non-null then the
Province and Region fields are also non-null — for any configuration,
HUCs included.  The claim's unconditional "Municipality ... non-null" is
false: a Barangay row that no Municipality header precedes keeps a null
Municipality (see the counterexample, which involves no HUC at all). -/
theorem c2_amended (cfg : HConfig) (rows : List SrcRow) (r : ORow)
    (hmem : r ∈ extract_location_hierarchy cfg rows)
    (hlev : r.level = some "Barangay") (hmun : r.municipality.isSome = true) :
    r.region.isSome = true ∧ r.province.isSome = true :=
  pipeline_tail_ok cfg _ r hmem hlev hmun

/-- Configuration of the C2 counterexample: one region, one province,
no HUCs. -/
def c2cCfg : HConfig :=
  { regionIdentifiers := ["REGION A"],
    regionProvinceMap := [("REGION A", ["PROV"])],
    hucs := [], hasAffected := false }

/-- Region header, province header, then a barangay row before any
Municipality header. -/
def c2cRows : List SrcRow :=
  [ { location := some "REGION A", subtotal := none, affected := none, payload := [] },
    { location := some "PROV", subtotal := none, affected := none, payload := [] },
    { location := some "Bgy Uno", subtotal := none, affected := none, payload := [] } ]

set_option maxHeartbeats 4000000 in
/-- C2 counterexample: the output contains a `Level = Barangay` row whose
Municipality is null, although the configuration records no HUC at all —
refuting "Municipality ... non-null except when the owning Municipality
is a recorded HUC row". -/
theorem c2_counterexample :
    (extract_location_hierarchy c2cCfg c2cRows).map
        (fun r => (r.level, r.region, r.province, r.municipality)) =
      [(some "Barangay", some "REGION A", some "PROV", none)] ∧
    c2cCfg.hucs = [] :=
  ⟨by decide, rfl⟩

def c2wCfg : HConfig :=
  { regionIdentifiers := ["REGION A"],
    regionProvinceMap := [("REGION A", ["PROV"])],
    hucs := [], hasAffected := false }

def c2wRows : List SrcRow :=
  [ { location := some "REGION A", subtotal := none, affected := none, payload := [] },
    { location := some "PROV", subtotal := none, affected := none, payload := [] },
    { location := some "Mun Uno", subtotal := some "5", affected := none, payload := [] },
    { location := some "Bgy Uno", subtotal := none, affected := none, payload := [] } ]

/-- The Barangay-level output row of the witness input. -/
def c2wRow : ORow :=
  { region := some "REGION A", province := some "PROV",
    municipality := some "Mun Uno", barangay := some "Bgy Uno",
    location := some "Bgy Uno", subtotal := none, affected := none,
    payload := [], isProvHeader := false, level := some "Barangay" }

set_option maxHeartbeats 4000000 in
theorem c2_witness :
    c2wRow.region.isSome = true ∧ c2wRow.province.isSome = true :=
  c2_amended c2wCfg c2wRows c2wRow (by decide) (by decide) (by decide)

/-!
## Row-order of the reconstructor output (`src/transformations.py`,
`transform_affected_population` Step 3b, lines 272-283)
-/

/-- A row as Step 3b sees it: `Region`, `Location`, remaining cells. -/
structure ARow where
  region : Option String
  location : Option String
  rest : List (Option String)
deriving DecidableEq

/-- `drop_duplicates(subset=['Region', '_location_upper'], keep='first')`
(pandas treats two NaN keys as duplicates of each other). -/
def dedupHucKeys (seen : List (Option String × Option String))
    (l : List (ARow × Option String)) : List (ARow × Option String) :=
  match l with
  | [] => []
  | p :: ps =>
    if seen.contains (p.1.region, p.2) then dedupHucKeys seen ps
    else p :: dedupHucKeys ((p.1.region, p.2) :: seen) ps
termination_by structural l

/-- Stable insertion sort on the index component, for
`.sort_index(kind='stable')`. -/
def insertByIdx {α : Type} (x : Nat × α) (l : List (Nat × α)) : List (Nat × α) :=
  match l with
  | [] => [x]
  | y :: ys => if x.1 < y.1 then x :: y :: ys else y :: insertByIdx x ys
termination_by structural l

def sortByIdx {α : Type} (l : List (Nat × α)) : List (Nat × α) :=
  l.foldr insertByIdx []

/-- Step 3b (lines 272-283): tag rows with `_location_upper` and
`_is_huc`, split into non-HUC and HUC rows, de-duplicate the HUC rows by
`(Region, _location_upper)`, then `pd.concat([non_huc, huc],
ignore_index=True).sort_index(kind='stable')` — `ignore_index=True`
renumbers the concatenated frame 0..n-1 *before* the sort, so the sort
sorts an already-sorted index. -/
def dropDupHucs (hucKeys : List String) (df : List ARow) : List ARow :=
  let tagged := df.map (fun r => (r, r.location.map pyUpperS))
  let isHucT := fun (p : ARow × Option String) =>
    match p.2 with
    | some u => hucKeys.contains u
    | none => false
  let nonHuc := tagged.filter (fun p => !(isHucT p))
  let hucDedup := dedupHucKeys [] (tagged.filter isHucT)
  ((sortByIdx (nonHuc ++ hucDedup).enum).map (·.2)).map (·.1)

def c9Huc : ARow :=
  { region := some "R", location := some "Huc City", rest := [some "7"] }

def c9Brgy : ARow :=
  { region := some "R", location := some "Brgy Uno", rest := [some "3"] }

/-- C9: the claim is right about the intent — the stable re-sort on the
index exists precisely to restore the original row order — but
`ignore_index=True` has already renumbered the frame 0..n-1, making the
sort a no-op: every HUC row is moved after all non-HUC rows, so retained
rows do not keep their original extracted order. -/
theorem c9_divergence :
    dropDupHucs ["HUC CITY"] [c9Huc, c9Brgy] = [c9Brgy, c9Huc] ∧
      ([c9Brgy, c9Huc] : List ARow) ≠ [c9Huc, c9Brgy] :=
  ⟨by decide, by decide⟩

/-!
## No mutation of the caller's frame (C10)

`extract_location_hierarchy` opens with `df = df.copy()` (line 18) and
`add_pcodes` with `output_df = df.copy()` (line 52); every subsequent
pandas operation targets the copy (reassigning the local name, `.at`,
`.loc`, column assignment on the copy), never the caller's object.  The
call is modelled as returning the caller's binding alongside the result:
the body below mirrors the source shape — copy first, then the pipeline
applied only to the copy.  `frameCopy` models `DataFrame.copy()`: a deep
copy of an immutable value is the value itself. -/
def frameCopy {α : Type} (l : List α) : List α :=
  l

def extract_location_hierarchy_call (cfg : HConfig) (df : List SrcRow) :
    List SrcRow × List ORow :=
  ((fun dfLocal => (df, extract_location_hierarchy cfg dfLocal)) (frameCopy df))

def add_pcodes_call (gaz : List PcodeRow) (sc : Scorer) (df : List InRow) :
    List InRow × Except String (List ResRow) :=
  ((fun output_df => (df, add_pcodes gaz sc output_df)) (frameCopy df))

/-- C10: neither call mutates its input — the caller's frame after the
call is exactly the frame before it, for every input. -/
theorem c10_no_mutation (cfg : HConfig) (gaz : List PcodeRow) (sc : Scorer)
    (rows : List SrcRow) (rows2 : List InRow) :
    (extract_location_hierarchy_call cfg rows).1 = rows ∧
      (add_pcodes_call gaz sc rows2).1 = rows2 :=
  ⟨rfl, rfl⟩

end S2P
